import Mathlib

set_option maxHeartbeats 1000000

namespace StepProvisioners

-- ===========================================================================
-- Base-64 layer: a model of Go encoding/base64 StdEncoding, the codec that
-- encoding/pem uses for the body of a PEM block.
-- ===========================================================================

-- The standard base-64 alphabet, indexed by a 6-bit value.
def b64Char (n : Nat) : Char :=
  if n < 26 then Char.ofNat (65 + n)
  else if n < 52 then Char.ofNat (97 + (n - 26))
  else if n < 62 then Char.ofNat (48 + (n - 52))
  else if n = 62 then '+'
  else '/'

-- Inverse table lookup for the standard base-64 alphabet.
def b64Val (c : Char) : Option Nat :=
  if 65 ≤ c.toNat ∧ c.toNat ≤ 90 then some (c.toNat - 65)
  else if 97 ≤ c.toNat ∧ c.toNat ≤ 122 then some (c.toNat - 97 + 26)
  else if 48 ≤ c.toNat ∧ c.toNat ≤ 57 then some (c.toNat - 48 + 52)
  else if c = '+' then some 62
  else if c = '/' then some 63
  else none

-- Base-64 encoding of a byte list, three bytes at a time, padded with '='.
def b64Encode : List Nat → List Char
  | [] => []
  | [a] => [b64Char (a / 4), b64Char (a % 4 * 16), '=', '=']
  | [a, b] => [b64Char (a / 4), b64Char (a % 4 * 16 + b / 16), b64Char (b % 16 * 4), '=']
  | a :: b :: c :: rest =>
      b64Char (a / 4) :: b64Char (a % 4 * 16 + b / 16) ::
        b64Char (b % 16 * 4 + c / 64) :: b64Char (c % 64) :: b64Encode rest

-- Base-64 decoding, four characters at a time; '=' padding is accepted only
-- at the very end of the input.
def b64Decode : List Char → Option (List Nat)
  | [] => some []
  | c1 :: c2 :: c3 :: c4 :: rest =>
    match b64Val c1, b64Val c2 with
    | some s1, some s2 =>
      if c3 = '=' then
        if c4 = '=' then
          if rest = [] then some [s1 * 4 + s2 / 16] else none
        else none
      else
        match b64Val c3 with
        | some s3 =>
          if c4 = '=' then
            if rest = [] then some [s1 * 4 + s2 / 16, s2 % 16 * 16 + s3 / 4] else none
          else
            match b64Val c4 with
            | some s4 =>
              match b64Decode rest with
              | some tail =>
                  some ((s1 * 4 + s2 / 16) :: (s2 % 16 * 16 + s3 / 4) :: (s3 % 4 * 64 + s4) :: tail)
              | none => none
            | none => none
        | none => none
    | _, _ => none
  | _ => none

theorem b64Val_b64Char (n : Nat) (h : n < 64) : b64Val (b64Char n) = some n := by
  interval_cases n <;> decide

theorem b64Char_ne_pad (n : Nat) : b64Char n ≠ '=' := by
  unfold b64Char
  split
  · next h => interval_cases n <;> decide
  · split
    · next h h2 => interval_cases n <;> decide
    · split
      · next h h2 h3 => interval_cases n <;> decide
      · split
        · next h4 => subst h4; decide
        · decide

theorem b64Char_ne_dash (n : Nat) : b64Char n ≠ '-' := by
  unfold b64Char
  split
  · next h => interval_cases n <;> decide
  · split
    · next h h2 => interval_cases n <;> decide
    · split
      · next h h2 h3 => interval_cases n <;> decide
      · split
        · next h4 => subst h4; decide
        · decide

theorem b64Encode_ne_dash : ∀ (bs : List Nat), ∀ c ∈ b64Encode bs, c ≠ '-'
  | [] => by simp [b64Encode]
  | [a] => by
      simp only [b64Encode, List.mem_cons, List.mem_singleton]
      intro c hc
      rcases hc with h | h | h | h | h
      · exact h ▸ b64Char_ne_dash _
      · exact h ▸ b64Char_ne_dash _
      · exact h ▸ (by decide)
      · exact h ▸ (by decide)
      · cases h
  | [a, b] => by
      simp only [b64Encode, List.mem_cons, List.mem_singleton]
      intro c hc
      rcases hc with h | h | h | h | h
      · exact h ▸ b64Char_ne_dash _
      · exact h ▸ b64Char_ne_dash _
      · exact h ▸ b64Char_ne_dash _
      · exact h ▸ (by decide)
      · cases h
  | a :: b :: c :: rest => by
      have ih := b64Encode_ne_dash rest
      simp only [b64Encode, List.mem_cons]
      intro x hx
      rcases hx with h | h | h | h | h
      · exact h ▸ b64Char_ne_dash _
      · exact h ▸ b64Char_ne_dash _
      · exact h ▸ b64Char_ne_dash _
      · exact h ▸ b64Char_ne_dash _
      · exact ih x h

theorem b64_arith1 (a b : Nat) (hb : b < 256) :
    a / 4 * 4 + (a % 4 * 16 + b / 16) / 16 = a := by
  have h1 : b / 16 / 16 = 0 := Nat.div_eq_of_lt (by omega)
  rw [Nat.add_comm (a % 4 * 16) (b / 16),
    Nat.add_mul_div_right _ _ (by norm_num : (0:Nat) < 16), h1]
  omega

theorem b64_arith2 (a b c : Nat) (hb : b < 256) (hc : c < 256) :
    (a % 4 * 16 + b / 16) % 16 * 16 + (b % 16 * 4 + c / 64) / 4 = b := by
  have h1 : b / 16 < 16 := by omega
  have h2 : c / 64 / 4 = 0 := Nat.div_eq_of_lt (by omega)
  rw [Nat.add_comm (a % 4 * 16) (b / 16), Nat.add_mul_mod_self_right, Nat.mod_eq_of_lt h1,
    Nat.add_comm (b % 16 * 4) (c / 64),
    Nat.add_mul_div_right _ _ (by norm_num : (0:Nat) < 4), h2]
  omega

theorem b64_arith3 (b c : Nat) (hc : c < 256) :
    (b % 16 * 4 + c / 64) % 4 * 64 + c % 64 = c := by
  have h1 : c / 64 < 4 := by omega
  rw [Nat.add_comm (b % 16 * 4) (c / 64), Nat.add_mul_mod_self_right, Nat.mod_eq_of_lt h1]
  omega

theorem b64_arith1p (a : Nat) : a / 4 * 4 + a % 4 * 16 / 16 = a := by
  have h1 : a % 4 * 16 / 16 = a % 4 := by
    rw [Nat.mul_div_cancel _ (by norm_num : (0:Nat) < 16)]
  omega

theorem b64_arith2p (a b : Nat) (hb : b < 256) :
    (a % 4 * 16 + b / 16) % 16 * 16 + b % 16 * 4 / 4 = b := by
  have h1 : b / 16 < 16 := by omega
  have h2 : b % 16 * 4 / 4 = b % 16 := by
    rw [Nat.mul_div_cancel _ (by norm_num : (0:Nat) < 4)]
  rw [Nat.add_comm (a % 4 * 16) (b / 16), Nat.add_mul_mod_self_right, Nat.mod_eq_of_lt h1, h2]
  omega

theorem b64_round_trip : ∀ (bs : List Nat), (∀ x ∈ bs, x < 256) →
    b64Decode (b64Encode bs) = some bs
  | [], _ => rfl
  | [a], h => by
      have ha : a < 256 := h a (by simp)
      have h1 : a / 4 < 64 := by omega
      have h2 : a % 4 * 16 < 64 := by omega
      simp only [b64Encode, b64Decode, b64Val_b64Char _ h1, b64Val_b64Char _ h2,
        reduceIte, Option.some.injEq, List.cons.injEq, and_true]
      exact b64_arith1p a
  | [a, b], h => by
      have ha : a < 256 := h a (by simp)
      have hb : b < 256 := h b (by simp)
      have h1 : a / 4 < 64 := by omega
      have h2 : a % 4 * 16 + b / 16 < 64 := by omega
      have h3 : b % 16 * 4 < 64 := by omega
      simp only [b64Encode, b64Decode, b64Val_b64Char _ h1, b64Val_b64Char _ h2]
      rw [if_neg (b64Char_ne_pad _)]
      simp only [b64Val_b64Char _ h3, reduceIte, Option.some.injEq, List.cons.injEq, and_true]
      exact ⟨b64_arith1 a b hb, b64_arith2p a b hb⟩
  | a :: b :: c :: rest, h => by
      have ha : a < 256 := h a (by simp)
      have hb : b < 256 := h b (by simp)
      have hc : c < 256 := h c (by simp)
      have hrest : ∀ x ∈ rest, x < 256 := fun x hx => h x (by simp [hx])
      have ih := b64_round_trip rest hrest
      have h1 : a / 4 < 64 := by omega
      have h2 : a % 4 * 16 + b / 16 < 64 := by omega
      have h3 : b % 16 * 4 + c / 64 < 64 := by omega
      have h4 : c % 64 < 64 := by omega
      simp only [b64Encode, b64Decode, b64Val_b64Char _ h1, b64Val_b64Char _ h2]
      rw [if_neg (b64Char_ne_pad _)]
      simp only [b64Val_b64Char _ h3]
      rw [if_neg (b64Char_ne_pad _)]
      simp only [b64Val_b64Char _ h4, ih, reduceIte, Option.some.injEq, List.cons.injEq,
        and_true]
      exact ⟨b64_arith1 a b hb, b64_arith2 a b c hb hc, b64_arith3 b c hc⟩

-- ===========================================================================
-- PEM layer: a model of Go encoding/pem at the granularity of text lines.
-- A PEM text is a list of lines, each line a list of characters.
-- ===========================================================================

-- pem.Encode wraps the base-64 body at 64 characters per line.  The fuel
-- argument makes the recursion structural; chunkLines supplies enough fuel.
def chunkLinesAux : List Char → Nat → List (List Char)
  | [], _ => []
  | _ :: _, 0 => []
  | c :: cs, n + 1 => (c :: cs.take 63) :: chunkLinesAux (cs.drop 63) n

def chunkLines (cs : List Char) : List (List Char) := chunkLinesAux cs cs.length

def dashes : List Char := "-----".toList

def beginMark : List Char := "-----BEGIN ".toList

def endMark : List Char := "-----END ".toList

structure PemBlock where
  type : List Char
  bytes : List Nat
deriving DecidableEq

-- The "-----BEGIN <type>-----" / "-----END <type>-----" boundary lines.
def boundaryLine (mark ty : List Char) : List Char := mark ++ ty ++ dashes

-- Recognize a boundary line starting with the given mark, extracting the type.
def parseTypeLine (mark l : List Char) : Option (List Char) :=
  if l.take mark.length = mark then
    let rest := l.drop mark.length
    if 5 ≤ rest.length ∧ rest.drop (rest.length - 5) = dashes then
      some (rest.take (rest.length - 5))
    else none
  else none

-- Model of pem.Encode restricted to header-free blocks, as used by the
-- repository: a BEGIN line, the base-64 body in 64-character lines, an END
-- line.
def pemEncode (ty : List Char) (bytes : List Nat) : List (List Char) :=
  boundaryLine beginMark ty :: (chunkLines (b64Encode bytes) ++ [boundaryLine endMark ty])

-- Model of pem.Decode: parse one block, returning it together with the
-- remaining lines after the block; none when no block is found.
def pemDecode : List (List Char) → Option (PemBlock × List (List Char))
  | [] => none
  | l :: ls =>
    match parseTypeLine beginMark l with
    | none => none
    | some ty =>
      let endLine := boundaryLine endMark ty
      let body := ls.takeWhile (fun x => decide (x ≠ endLine))
      match ls.dropWhile (fun x => decide (x ≠ endLine)) with
      | [] => none
      | _ :: rest =>
        match b64Decode body.flatten with
        | none => none
        | some bytes => some ({ type := ty, bytes := bytes }, rest)

theorem take_length_append {α : Type} (xs ys : List α) : (xs ++ ys).take xs.length = xs := by
  induction xs with
  | nil => simp
  | cons x xs ih => simp [ih]

theorem drop_length_append {α : Type} (xs ys : List α) : (xs ++ ys).drop xs.length = ys := by
  induction xs with
  | nil => simp
  | cons x xs ih => simp [ih]

theorem parseTypeLine_boundary (mark ty : List Char) :
    parseTypeLine mark (boundaryLine mark ty) = some ty := by
  unfold parseTypeLine boundaryLine
  rw [List.append_assoc, take_length_append, if_pos rfl, drop_length_append]
  have hlen : (ty ++ dashes).length = ty.length + 5 := by simp [dashes]
  have hlen5 : 5 ≤ (ty ++ dashes).length := by omega
  have hdrop : (ty ++ dashes).drop ((ty ++ dashes).length - 5) = dashes := by
    rw [hlen, Nat.add_sub_cancel, drop_length_append]
  rw [if_pos ⟨hlen5, hdrop⟩, hlen, Nat.add_sub_cancel, take_length_append]

theorem chunkLinesAux_flatten : ∀ (cs : List Char) (n : Nat), cs.length ≤ n →
    (chunkLinesAux cs n).flatten = cs
  | [], 0, _ => rfl
  | [], n + 1, _ => rfl
  | c :: cs, 0, h => by simp at h
  | c :: cs, n + 1, h => by
    have ih := chunkLinesAux_flatten (cs.drop 63) n
      (by simp only [List.length_drop]; simp at h; omega)
    simp only [chunkLinesAux, List.flatten_cons, ih, List.cons_append,
      List.take_append_drop]

theorem chunkLines_flatten (cs : List Char) : (chunkLines cs).flatten = cs :=
  chunkLinesAux_flatten cs cs.length (Nat.le_refl _)

theorem chunkLinesAux_mem : ∀ (cs : List Char) (n : Nat),
    ∀ l ∈ chunkLinesAux cs n, l ≠ [] ∧ ∀ c ∈ l, c ∈ cs
  | [], 0, l, hl => by cases hl
  | [], n + 1, l, hl => by cases hl
  | c :: cs, 0, l, hl => by cases hl
  | c :: cs, n + 1, l, hl => by
    rcases List.mem_cons.mp hl with rfl | hl2
    · refine ⟨by simp, fun x hx => ?_⟩
      rcases List.mem_cons.mp hx with rfl | hx2
      · exact List.mem_cons_self _ _
      · exact List.mem_cons_of_mem _ (List.take_subset _ _ hx2)
    · have ih := chunkLinesAux_mem (cs.drop 63) n l hl2
      exact ⟨ih.1, fun x hx => List.mem_cons_of_mem _ (List.drop_subset _ _ (ih.2 x hx))⟩

theorem chunkLines_mem (cs : List Char) :
    ∀ l ∈ chunkLines cs, l ≠ [] ∧ ∀ c ∈ l, c ∈ cs :=
  chunkLinesAux_mem cs cs.length

theorem takeWhile_dropWhile_append {α : Type} (p : α → Bool) (xs : List α) (y : α)
    (ys : List α) (h : ∀ x ∈ xs, p x = true) (hy : p y = false) :
    (xs ++ y :: ys).takeWhile p = xs ∧ (xs ++ y :: ys).dropWhile p = y :: ys := by
  induction xs with
  | nil => simp [List.takeWhile, List.dropWhile, hy]
  | cons x xs ih =>
    have hx : p x = true := h x (by simp)
    have ih2 := ih (fun a ha => h a (by simp [ha]))
    simp only [List.cons_append, List.takeWhile_cons, List.dropWhile_cons, hx]
    simp [ih2.1, ih2.2]

-- The first character of the END boundary line is a dash, while the base-64
-- body never contains a dash; hence body lines are never mistaken for the
-- END line.
theorem pemDecode_pemEncode (ty : List Char) (bytes : List Nat)
    (h : ∀ x ∈ bytes, x < 256) :
    pemDecode (pemEncode ty bytes) = some ({ type := ty, bytes := bytes }, []) := by
  unfold pemEncode
  simp only [pemDecode, parseTypeLine_boundary]
  have hchunk := chunkLines_mem (b64Encode bytes)
  have hbody : ∀ l ∈ chunkLines (b64Encode bytes),
      (fun x => decide (x ≠ boundaryLine endMark ty)) l = true := by
    intro l hl
    have ⟨hne, hsub⟩ := hchunk l hl
    simp only [decide_eq_true_eq, ne_eq]
    intro heq
    cases l with
    | nil => exact hne rfl
    | cons c t =>
      have hc : c ∈ b64Encode bytes := hsub c (by simp)
      have hcdash : c ≠ '-' := b64Encode_ne_dash bytes c hc
      have hb : boundaryLine endMark ty = '-' :: (("----END ".toList) ++ ty ++ dashes) := rfl
      rw [hb] at heq
      injection heq with hhd htl
      exact hcdash hhd
  have hend : (fun x => decide (x ≠ boundaryLine endMark ty)) (boundaryLine endMark ty)
      = false := by simp
  have := takeWhile_dropWhile_append (fun x => decide (x ≠ boundaryLine endMark ty))
    (chunkLines (b64Encode bytes)) (boundaryLine endMark ty) [] hbody hend
  rw [this.1, this.2, chunkLines_flatten, b64_round_trip bytes h]

-- ===========================================================================
-- Data model of the repository (provisioners/step.go) and of the external
-- collaborators it invokes.  Network calls of the smallstep CA client and
-- the x509 routines of the Go standard library are abstracted as oracle
-- fields; the control flow of step.go itself is translated verbatim.
-- ===========================================================================

-- Rendering of an x509 certificate: only its raw DER bytes matter here.
structure Certificate where
  raw : List Nat
deriving DecidableEq

-- net.IP, observed through its String() rendering.
structure IPAddress where
  str : String
deriving DecidableEq

-- url.URL, observed through its String() rendering.
structure URIValue where
  str : String
deriving DecidableEq

-- pkix.Name, restricted to the field the code reads.
structure PKIXName where
  commonName : String
deriving DecidableEq

-- x509.CertificateRequest, restricted to the fields the code reads.
structure CertificateRequestInfo where
  subject : PKIXName
  dnsNames : List String
  emailAddresses : List String
  ipAddresses : List IPAddress
  uris : List URIValue
deriving DecidableEq

-- capi.TimeDuration; its zero value has no duration set.
structure TimeDuration where
  dur : Option Int := none
deriving DecidableEq

def TimeDuration.setDuration (_t : TimeDuration) (d : Int) : TimeDuration :=
  { dur := some d }

-- capi.SignRequest, restricted to the fields the code sets.
structure SignRequest where
  csrPEM : CertificateRequestInfo
  ott : String
  notAfter : TimeDuration
deriving DecidableEq

-- capi.SignResponse, restricted to the fields the code reads.
structure SignResponse where
  serverPEM : Certificate
  caPEM : Certificate
deriving DecidableEq

-- capi.RootsResponse, restricted to the fields the code reads.
structure RootsResponse where
  certificates : List Certificate
deriving DecidableEq

-- Oracle for the x509 routines of the Go standard library used by decodeCSR.
structure X509World where
  parseCertificateRequest : List Nat → Except String CertificateRequestInfo
  checkSignature : CertificateRequestInfo → Option String

-- Oracle for the smallstep ca.Provisioner client held by a Step provisioner.
structure ProvisionerModel where
  roots : Except String RootsResponse
  token : String → List String → Except String String
  sign : SignRequest → Except String SignResponse

-- certmanager.CertificateRequest, restricted to the fields the code reads.
structure CertManagerRequest where
  request : List (List Char)
  duration : Option Int

def certificateType : List Char := "CERTIFICATE".toList

def certificateRequestType : List Char := "CERTIFICATE REQUEST".toList

-- ===========================================================================
-- Pure helpers of step.go.
-- ===========================================================================

-- The loop body of generateSubject: first SAN that is neither "127.0.0.1"
-- nor "localhost".
def firstNonLocalhost : List String → Option String
  | [] => none
  | s :: rest =>
    if s ≠ "127.0.0.1" ∧ s ≠ "localhost" then some s else firstNonLocalhost rest

-- generateSubject returns the first SAN that is not 127.0.0.1 or localhost;
-- if no SANs are available "step-issuer-certificate" is used; if all SANs
-- are filtered, the first SAN is used.
def generateSubject : List String → String
  | [] => "step-issuer-certificate"
  | s0 :: rest =>
    match firstNonLocalhost (s0 :: rest) with
    | some s => s
    | none => s0

-- Subject computation inside Step.Sign: the common name if non-empty,
-- otherwise generateSubject of the SANs.
def resolveSubject (commonName : String) (sans : List String) : String :=
  if commonName = "" then generateSubject sans else commonName

-- SAN collection inside Step.Sign: DNS names, then email addresses, then
-- IP addresses rendered by String(), then URIs rendered by String().
def collectSANs (csr : CertificateRequestInfo) : List String :=
  let sans := [] ++ csr.dnsNames
  let sans := sans ++ csr.emailAddresses
  let sans := sans ++ csr.ipAddresses.map IPAddress.str
  let sans := sans ++ csr.uris.map URIValue.str
  sans

-- NotAfter computation inside Step.Sign: a zero TimeDuration unless a
-- duration was supplied on the certificate request resource.
def notAfterFor (duration : Option Int) : TimeDuration :=
  let notAfter : TimeDuration := {}
  match duration with
  | some d => notAfter.setDuration d
  | none => notAfter

-- encodeX509 renders a certificate as one PEM block of type CERTIFICATE.
-- pem.Encode writes into an in-memory buffer here, which cannot fail.
def encodeX509 (cert : Certificate) : Except String (List (List Char)) :=
  .ok (pemEncode certificateType cert.raw)

-- decodeCSR decodes a certificate request in PEM format, requiring a single
-- block of the right type, a successful parse and a valid self-signature.
def decodeCSR (W : X509World) (data : List (List Char)) :
    Except String CertificateRequestInfo :=
  match pemDecode data with
  | none => .error "unexpected CSR PEM on sign request"
  | some (block, rest) =>
    if rest ≠ [] then .error "unexpected CSR PEM on sign request"
    else if block.type ≠ certificateRequestType then .error "PEM is not a certificate request"
    else
      match W.parseCertificateRequest block.bytes with
      | .error e => .error ("error parsing certificate request: " ++ e)
      | .ok csr =>
        match W.checkSignature csr with
        | some e => .error ("error checking certificate request signature: " ++ e)
        | none => .ok csr

-- The root-encoding loop of Step.Sign, accumulating the PEM blocks.
def encodeRoots : List Certificate → List (List Char) →
    Except String (List (List Char))
  | [], acc => .ok acc
  | root :: rest, acc =>
    match encodeX509 root with
    | .error e => .error e
    | .ok b => encodeRoots rest (acc ++ b)

-- Step.Sign: fetch and encode the roots, decode and validate the CSR,
-- collect SANs and subject, obtain a one-time token, send the sign request,
-- and return (leaf ++ intermediate, root bundle, nil) or (nil, nil, err).
def StepSign (p : ProvisionerModel) (W : X509World) (cr : CertManagerRequest) :
    Option (List (List Char)) × Option (List (List Char)) × Option String :=
  match p.roots with
  | .error e => (none, none, some e)
  | .ok roots =>
    match encodeRoots roots.certificates [] with
    | .error e => (none, none, some e)
    | .ok caPem =>
      match decodeCSR W cr.request with
      | .error e => (none, none, some e)
      | .ok csr =>
        match p.token (resolveSubject csr.subject.commonName (collectSANs csr))
            (collectSANs csr) with
        | .error e => (none, none, some e)
        | .ok token =>
          match p.sign { csrPEM := csr, ott := token,
                         notAfter := notAfterFor cr.duration } with
          | .error e => (none, none, some e)
          | .ok resp =>
            match encodeX509 resp.serverPEM with
            | .error e => (none, none, some e)
            | .ok certPem =>
              match encodeX509 resp.caPEM with
              | .error e => (none, none, some e)
              | .ok chainPem => (some (certPem ++ chainPem), some caPem, none)

-- ===========================================================================
-- Construction: New and createIdentityCertificate.
-- ===========================================================================

-- api.StepIssuer, restricted to the fields New reads for the Step value.
structure StepIssuer where
  name : String
  namespaceStr : String

-- The Step provisioner value built by New.
structure Step where
  name : String
deriving DecidableEq

-- ca.VersionResponse, restricted to the field New reads.
structure VersionResponse where
  requireClientAuthentication : Bool
deriving DecidableEq

-- Oracle for the external calls made during construction: ca.NewProvisioner,
-- provisioner.Version, ca.CreateCertificateRequest, provisioner.Token for
-- the provisioner's own name, provisioner.Sign for the identity CSR, and
-- Client.Transport.  Opaque handles stand for the CSR, key and response.
structure BootstrapWorld where
  newProvisioner : Except String Unit
  version : Except String VersionResponse
  createCertificateRequest : Except String (Nat × Nat)
  identityToken : Except String String
  identitySign : Nat → String → Except String Nat
  transport : Nat → Nat → Except String Unit

-- createIdentityCertificate: CSR and key generation, token issuance for the
-- provisioner's own name, the sign call, and the transport upgrade; the
-- first failure is returned, success returns no error.
def createIdentityCertificate (w : BootstrapWorld) : Option String :=
  match w.createCertificateRequest with
  | .error e => some e
  | .ok (csr, pk) =>
    match w.identityToken with
    | .error e => some e
    | .ok token =>
      match w.identitySign csr token with
      | .error e => some e
      | .ok resp =>
        match w.transport resp pk with
        | .error e => some e
        | .ok _ => none

-- New: build the provisioner, then, when the version call succeeds and
-- declares client authentication mandatory, run the identity bootstrap;
-- a version failure skips the bootstrap silently.
def New (iss : StepIssuer) (w : BootstrapWorld) : Except String Step :=
  match w.newProvisioner with
  | .error e => .error e
  | .ok _ =>
    let p : Step := { name := iss.name ++ "." ++ iss.namespaceStr }
    match w.version with
    | .ok version =>
      if version.requireClientAuthentication then
        match createIdentityCertificate w with
        | some e => .error e
        | none => .ok p
      else .ok p
    | .error _ => .ok p

-- ===========================================================================
-- Registry: the package-level sync.Map with Load and Store.
-- ===========================================================================

-- types.NamespacedName.
structure NamespacedName where
  namespaceStr : String
  name : String
deriving DecidableEq

-- The sync.Map contents: Store only ever inserts *Step values, so the map
-- is modelled as an association list of Step values, newest first.
abbrev Collection := List (NamespacedName × Step)

-- Store adds a new provisioner to the collection by NamespacedName.
def Store (c : Collection) (namespacedName : NamespacedName) (provisioner : Step) :
    Collection :=
  (namespacedName, provisioner) :: c

-- Load returns a Step provisioner by NamespacedName; a missing key yields
-- (nil, false), and the type assertion always succeeds on stored values.
def Load (c : Collection) (namespacedName : NamespacedName) : Option Step × Bool :=
  match List.find? (fun e => decide (e.1 = namespacedName)) c with
  | none => (none, false)
  | some e => (some e.2, true)

-- ===========================================================================
-- Helper lemmas.
-- ===========================================================================

theorem firstNonLocalhost_eq_find (l : List String) :
    firstNonLocalhost l =
      List.find? (fun s => decide (s ≠ "127.0.0.1" ∧ s ≠ "localhost")) l := by
  induction l with
  | nil => rfl
  | cons s rest ih =>
    by_cases h : s ≠ "127.0.0.1" ∧ s ≠ "localhost"
    · rw [firstNonLocalhost, if_pos h, List.find?_cons_of_pos _ (by simpa using h)]
    · rw [firstNonLocalhost, if_neg h, List.find?_cons_of_neg _ (by simpa using h), ih]

theorem encodeRoots_eq (certs : List Certificate) (acc : List (List Char)) :
    encodeRoots certs acc =
      .ok (acc ++ (certs.map (fun c => pemEncode certificateType c.raw)).flatten) := by
  induction certs generalizing acc with
  | nil => simp [encodeRoots]
  | cons r rest ih => simp [encodeRoots, encodeX509, ih, List.append_assoc]

-- StepSign consults the token oracle only at the subject and SAN list
-- computed from the decoded CSR, and the sign oracle only at requests whose
-- NotAfter field is the one computed from the supplied duration.
theorem stepSign_congr (p₁ p₂ : ProvisionerModel) (W : X509World) (cr : CertManagerRequest)
    (hroots : p₁.roots = p₂.roots)
    (htoken : ∀ csr, decodeCSR W cr.request = .ok csr →
      p₁.token (resolveSubject csr.subject.commonName (collectSANs csr)) (collectSANs csr) =
        p₂.token (resolveSubject csr.subject.commonName (collectSANs csr)) (collectSANs csr))
    (hsign : ∀ r : SignRequest, r.notAfter = notAfterFor cr.duration →
      p₁.sign r = p₂.sign r) :
    StepSign p₁ W cr = StepSign p₂ W cr := by
  unfold StepSign
  rw [hroots]
  cases h1 : p₂.roots with
  | error e => rfl
  | ok roots =>
    dsimp only
    cases h2 : encodeRoots roots.certificates [] with
    | error e => rfl
    | ok caPem =>
      dsimp only
      cases h3 : decodeCSR W cr.request with
      | error e => rfl
      | ok csr =>
        dsimp only
        rw [htoken csr h3]
        cases h4 : p₂.token (resolveSubject csr.subject.commonName (collectSANs csr))
            (collectSANs csr) with
        | error e => rfl
        | ok token =>
          dsimp only
          rw [hsign { csrPEM := csr, ott := token, notAfter := notAfterFor cr.duration } rfl]

-- ===========================================================================
-- Claims.
-- ===========================================================================

/-- C1: for a validated certificate request, a non-empty common name is used
verbatim as the subject; with an empty common name the subject is the
fallback literal when there are no SANs, the first SAN that is neither
"127.0.0.1" nor "localhost" when one exists, and the first SAN otherwise. -/
theorem subject_resolution (cn : String) (sans : List String) :
    (cn ≠ "" → resolveSubject cn sans = cn) ∧
    (cn = "" → sans = [] → resolveSubject cn sans = "step-issuer-certificate") ∧
    (cn = "" → ∀ s,
      List.find? (fun x => decide (x ≠ "127.0.0.1" ∧ x ≠ "localhost")) sans = some s →
      resolveSubject cn sans = s) ∧
    (cn = "" → ∀ hd tl, sans = hd :: tl →
      (∀ x ∈ sans, x = "127.0.0.1" ∨ x = "localhost") →
      resolveSubject cn sans = hd) := by
  refine ⟨fun h => by rw [resolveSubject, if_neg h], fun h1 h2 => ?_, fun h1 s hf => ?_,
    fun h1 hd tl h2 hall => ?_⟩
  · subst h1; subst h2; rfl
  · subst h1
    rw [resolveSubject, if_pos rfl]
    cases sans with
    | nil => cases hf
    | cons hd tl =>
      rw [generateSubject, firstNonLocalhost_eq_find, hf]
  · subst h1; subst h2
    rw [resolveSubject, if_pos rfl, generateSubject, firstNonLocalhost_eq_find]
    have hnone : List.find? (fun x => decide (x ≠ "127.0.0.1" ∧ x ≠ "localhost"))
        (hd :: tl) = none := by
      rw [List.find?_eq_none]
      intro x hx
      simp only [Bool.not_eq_true, decide_eq_false_iff_not, not_and_or, not_not]
      rcases hall x hx with h | h
      · exact Or.inl h
      · exact Or.inr h
    rw [hnone]

/-- C1 witness. -/
theorem subject_resolution_witness :
    resolveSubject "example.com" ["127.0.0.1"] = "example.com" ∧
    resolveSubject "" [] = "step-issuer-certificate" ∧
    resolveSubject "" ["127.0.0.1", "app.example.com"] = "app.example.com" ∧
    resolveSubject "" ["127.0.0.1", "localhost"] = "127.0.0.1" :=
  ⟨(subject_resolution "example.com" ["127.0.0.1"]).1 (by decide),
   (subject_resolution "" []).2.1 rfl rfl,
   (subject_resolution "" ["127.0.0.1", "app.example.com"]).2.2.1 rfl "app.example.com"
     (by decide),
   (subject_resolution "" ["127.0.0.1", "localhost"]).2.2.2 rfl "127.0.0.1" ["localhost"]
     rfl (by decide)⟩

/-- C8: PEM-decoding the output of encodeX509 yields exactly one block of
type CERTIFICATE whose bytes are the certificate's raw bytes, with no
trailing content. -/
theorem encodeX509_round_trip (cert : Certificate) (h : ∀ x ∈ cert.raw, x < 256) :
    ∃ out, encodeX509 cert = .ok out ∧
      pemDecode out = some ({ type := certificateType, bytes := cert.raw }, []) :=
  ⟨pemEncode certificateType cert.raw, rfl, pemDecode_pemEncode _ _ h⟩

/-- C8 witness. -/
theorem encodeX509_round_trip_witness :
    ∃ out, encodeX509 ⟨[0, 255, 7, 64]⟩ = .ok out ∧
      pemDecode out = some ({ type := certificateType, bytes := [0, 255, 7, 64] }, []) :=
  encodeX509_round_trip ⟨[0, 255, 7, 64]⟩ (by decide)

/-- C9: after Store of a provisioner under a namespaced name, Load of that
name returns it with the found flag; Load of a name never stored returns
(nil, false). -/
theorem registry_round_trip :
    (∀ (c : Collection) (n : NamespacedName) (p : Step),
      Load (Store c n p) n = (some p, true)) ∧
    (∀ (c : Collection) (n : NamespacedName),
      (∀ e ∈ c, e.1 ≠ n) → Load c n = (none, false)) := by
  constructor
  · intro c n p
    rw [Load, Store, List.find?_cons_of_pos _ (by simp)]
  · intro c n h
    rw [Load, List.find?_eq_none.mpr]
    intro e he
    simpa using h e he

/-- C9 witness. -/
theorem registry_round_trip_witness :
    Load (Store [] ⟨"ns", "issuer"⟩ ⟨"issuer.ns"⟩) ⟨"ns", "issuer"⟩ =
      (some ⟨"issuer.ns"⟩, true) ∧
    Load [] ⟨"ns", "issuer"⟩ = (none, false) :=
  ⟨registry_round_trip.1 [] ⟨"ns", "issuer"⟩ ⟨"issuer.ns"⟩,
   registry_round_trip.2 [] ⟨"ns", "issuer"⟩ (by simp)⟩

/-- C10: whenever Sign returns an error, both returned byte sequences are
nil; no partial output escapes, even though the root bundle is computed
before the failing step. -/
theorem sign_failure_atomicity (p : ProvisionerModel) (W : X509World)
    (cr : CertManagerRequest) (a b : Option (List (List Char))) (e : String)
    (h : StepSign p W cr = (a, b, some e)) : a = none ∧ b = none := by
  unfold StepSign at h
  repeat' split at h
  all_goals simp only [Prod.mk.injEq] at h
  all_goals first
    | exact ⟨h.1.symm, h.2.1.symm⟩
    | exact Option.noConfusion h.2.2

-- Fixtures for the witnesses that need a failing provisioner.
def badProvisioner : ProvisionerModel :=
  { roots := .error "connection refused",
    token := fun _ _ => .error "connection refused",
    sign := fun _ => .error "connection refused" }

def strictX509 : X509World :=
  { parseCertificateRequest := fun _ => .error "asn1 error",
    checkSignature := fun _ => some "bad signature" }

def emptyRequest : CertManagerRequest := { request := [], duration := none }

/-- C10 witness. -/
theorem sign_failure_atomicity_witness :
    (none : Option (List (List Char))) = none ∧
      (none : Option (List (List Char))) = none :=
  sign_failure_atomicity badProvisioner strictX509 emptyRequest none none
    "connection refused" rfl

/-- C2: decodeCSR returns a parsed request exactly when the input decodes to
one PEM block with no trailing lines, of type CERTIFICATE REQUEST, whose
bytes parse and whose self-signature verifies; each failure mode yields the
corresponding error, the parse and signature failures carrying the cause. -/
theorem decodeCSR_characterization (W : X509World) (data : List (List Char)) :
    (∀ csr, decodeCSR W data = .ok csr ↔
      ∃ block, pemDecode data = some (block, []) ∧
        block.type = certificateRequestType ∧
        W.parseCertificateRequest block.bytes = .ok csr ∧
        W.checkSignature csr = none) ∧
    (pemDecode data = none →
      decodeCSR W data = .error "unexpected CSR PEM on sign request") ∧
    (∀ block rest, pemDecode data = some (block, rest) → rest ≠ [] →
      decodeCSR W data = .error "unexpected CSR PEM on sign request") ∧
    (∀ block, pemDecode data = some (block, []) → block.type ≠ certificateRequestType →
      decodeCSR W data = .error "PEM is not a certificate request") ∧
    (∀ block e, pemDecode data = some (block, []) → block.type = certificateRequestType →
      W.parseCertificateRequest block.bytes = .error e →
      decodeCSR W data = .error ("error parsing certificate request: " ++ e)) ∧
    (∀ block csr e, pemDecode data = some (block, []) →
      block.type = certificateRequestType →
      W.parseCertificateRequest block.bytes = .ok csr → W.checkSignature csr = some e →
      decodeCSR W data = .error ("error checking certificate request signature: " ++ e)) := by
  refine ⟨fun csr => ⟨fun h => ?_, fun ⟨block, hp, hty, hparse, hsig⟩ => ?_⟩,
    fun hp => ?_, fun block rest hp hrest => ?_, fun block hp hty => ?_,
    fun block e hp hty hparse => ?_, fun block csr e hp hty hparse hsig => ?_⟩
  · unfold decodeCSR at h
    cases hp : pemDecode data with
    | none => rw [hp] at h; exact Except.noConfusion h
    | some pr =>
      obtain ⟨block, rest⟩ := pr
      rw [hp] at h
      dsimp only at h
      by_cases hrest : rest ≠ []
      · rw [if_pos hrest] at h; exact Except.noConfusion h
      · rw [if_neg hrest] at h
        push_neg at hrest
        subst hrest
        by_cases hty : block.type ≠ certificateRequestType
        · rw [if_pos hty] at h; exact Except.noConfusion h
        · rw [if_neg hty] at h
          push_neg at hty
          cases hparse : W.parseCertificateRequest block.bytes with
          | error e => rw [hparse] at h; dsimp only at h; exact Except.noConfusion h
          | ok csr' =>
            rw [hparse] at h
            dsimp only at h
            cases hsig : W.checkSignature csr' with
            | some e => rw [hsig] at h; dsimp only at h; exact Except.noConfusion h
            | none =>
              rw [hsig] at h
              dsimp only at h
              injection h with hcsr
              subst hcsr
              exact ⟨block, rfl, hty, hparse, hsig⟩
  · unfold decodeCSR
    rw [hp]
    dsimp only
    rw [if_neg (by simp), if_neg (by simp [hty]), hparse]
    dsimp only
    rw [hsig]
  · unfold decodeCSR
    rw [hp]
  · unfold decodeCSR
    rw [hp]
    dsimp only
    rw [if_pos hrest]
  · unfold decodeCSR
    rw [hp]
    dsimp only
    rw [if_neg (by simp), if_pos hty]
  · unfold decodeCSR
    rw [hp]
    dsimp only
    rw [if_neg (by simp), if_neg (by simp [hty]), hparse]
  · unfold decodeCSR
    rw [hp]
    dsimp only
    rw [if_neg (by simp), if_neg (by simp [hty]), hparse]
    dsimp only
    rw [hsig]

-- Fixtures for a fully successful signing pipeline.
def okCsrInfo : CertificateRequestInfo :=
  { subject := { commonName := "svc.example.com" },
    dnsNames := ["svc.example.com"],
    emailAddresses := [],
    ipAddresses := [],
    uris := [] }

def okX509 : X509World :=
  { parseCertificateRequest := fun _ => .ok okCsrInfo,
    checkSignature := fun _ => none }

def leafCertFix : Certificate := ⟨[1, 2, 3]⟩

def intermediateCertFix : Certificate := ⟨[4, 5]⟩

def rootCertFix : Certificate := ⟨[6]⟩

def okProvisioner : ProvisionerModel :=
  { roots := .ok { certificates := [rootCertFix] },
    token := fun _ _ => .ok "one-time-token",
    sign := fun _ => .ok { serverPEM := leafCertFix, caPEM := intermediateCertFix } }

def okRequest : CertManagerRequest :=
  { request := pemEncode certificateRequestType [], duration := none }

/-- C2 witness. -/
theorem decodeCSR_characterization_witness :
    decodeCSR okX509 (pemEncode certificateRequestType []) = .ok okCsrInfo :=
  ((decodeCSR_characterization okX509 (pemEncode certificateRequestType [])).1
    okCsrInfo).mpr
    ⟨{ type := certificateRequestType, bytes := [] }, by rfl, rfl, rfl, rfl⟩

-- Inversion of a successful run of StepSign: the oracle outcomes it relies
-- on and the exact shape of both outputs.
theorem stepSign_ok_inv (p : ProvisionerModel) (W : X509World)
    (cr : CertManagerRequest) (a b : Option (List (List Char)))
    (h : StepSign p W cr = (a, b, none)) :
    ∃ roots resp,
      p.roots = .ok roots ∧
      (∃ csr token, decodeCSR W cr.request = .ok csr ∧
        p.sign { csrPEM := csr, ott := token,
                 notAfter := notAfterFor cr.duration } = .ok resp) ∧
      a = some (pemEncode certificateType resp.serverPEM.raw ++
        pemEncode certificateType resp.caPEM.raw) ∧
      b = some ((roots.certificates.map
        (fun c => pemEncode certificateType c.raw)).flatten) := by
  unfold StepSign at h
  cases h1 : p.roots with
  | error e =>
    rw [h1] at h
    dsimp only at h
    simp only [Prod.mk.injEq] at h
    exact Option.noConfusion h.2.2
  | ok roots =>
    rw [h1] at h
    dsimp only at h
    rw [encodeRoots_eq] at h
    dsimp only at h
    cases h3 : decodeCSR W cr.request with
    | error e =>
      rw [h3] at h
      dsimp only at h
      simp only [Prod.mk.injEq] at h
      exact Option.noConfusion h.2.2
    | ok csr =>
      rw [h3] at h
      dsimp only at h
      cases h4 : p.token (resolveSubject csr.subject.commonName (collectSANs csr))
          (collectSANs csr) with
      | error e =>
        rw [h4] at h
        dsimp only at h
        simp only [Prod.mk.injEq] at h
        exact Option.noConfusion h.2.2
      | ok token =>
        rw [h4] at h
        dsimp only at h
        cases h5 : p.sign { csrPEM := csr, ott := token,
                            notAfter := notAfterFor cr.duration } with
        | error e =>
          rw [h5] at h
          dsimp only at h
          simp only [Prod.mk.injEq] at h
          exact Option.noConfusion h.2.2
        | ok resp =>
          rw [h5] at h
          simp only [encodeX509, Prod.mk.injEq, List.nil_append] at h
          exact ⟨roots, resp, rfl, ⟨csr, token, rfl, h5⟩, h.1.symm, h.2.1.symm⟩

/-- C3: a successful Sign call returns, first, the PEM encoding of the leaf
certificate immediately followed by the PEM encoding of the CA certificate
and, second, the concatenated PEM encodings of the root certificates in the
order the CA returned them. -/
theorem sign_output_assembly (p : ProvisionerModel) (W : X509World)
    (cr : CertManagerRequest) (a b : Option (List (List Char)))
    (h : StepSign p W cr = (a, b, none)) :
    ∃ roots resp,
      p.roots = .ok roots ∧
      (∃ csr token, decodeCSR W cr.request = .ok csr ∧
        p.sign { csrPEM := csr, ott := token,
                 notAfter := notAfterFor cr.duration } = .ok resp) ∧
      a = some (pemEncode certificateType resp.serverPEM.raw ++
        pemEncode certificateType resp.caPEM.raw) ∧
      b = some ((roots.certificates.map
        (fun c => pemEncode certificateType c.raw)).flatten) :=
  stepSign_ok_inv p W cr a b h

/-- C3 witness. -/
theorem sign_output_assembly_witness :
    ∃ roots resp,
      okProvisioner.roots = .ok roots ∧
      (∃ csr token, decodeCSR okX509 okRequest.request = .ok csr ∧
        okProvisioner.sign { csrPEM := csr, ott := token,
                             notAfter := notAfterFor okRequest.duration } = .ok resp) ∧
      some (pemEncode certificateType leafCertFix.raw ++
          pemEncode certificateType intermediateCertFix.raw) =
        some (pemEncode certificateType resp.serverPEM.raw ++
          pemEncode certificateType resp.caPEM.raw) ∧
      some (pemEncode certificateType rootCertFix.raw) =
        some ((roots.certificates.map
          (fun c => pemEncode certificateType c.raw)).flatten) :=
  sign_output_assembly okProvisioner okX509 okRequest
    (some (pemEncode certificateType leafCertFix.raw ++
      pemEncode certificateType intermediateCertFix.raw))
    (some (pemEncode certificateType rootCertFix.raw))
    (by rfl)

/-- C5: Sign succeeds only if the root fetch and the CA sign call both
succeed, and a failure of the root fetch, the token issuance or the sign
call is returned to the caller unmodified. -/
theorem sign_error_forwarding (p : ProvisionerModel) (W : X509World)
    (cr : CertManagerRequest) :
    (∀ a b, StepSign p W cr = (a, b, none) →
      (∃ roots, p.roots = .ok roots) ∧ ∃ req resp, p.sign req = .ok resp) ∧
    (∀ e, p.roots = .error e → StepSign p W cr = (none, none, some e)) ∧
    (∀ roots csr e, p.roots = .ok roots → decodeCSR W cr.request = .ok csr →
      p.token (resolveSubject csr.subject.commonName (collectSANs csr))
        (collectSANs csr) = .error e →
      StepSign p W cr = (none, none, some e)) ∧
    (∀ roots csr token e, p.roots = .ok roots → decodeCSR W cr.request = .ok csr →
      p.token (resolveSubject csr.subject.commonName (collectSANs csr))
        (collectSANs csr) = .ok token →
      p.sign { csrPEM := csr, ott := token,
               notAfter := notAfterFor cr.duration } = .error e →
      StepSign p W cr = (none, none, some e)) := by
  refine ⟨fun a b h => ?_, fun e h => ?_, fun roots csr e h1 h3 h4 => ?_,
    fun roots csr token e h1 h3 h4 h5 => ?_⟩
  · obtain ⟨roots, resp, hroots, ⟨csrW, tokenW, _, hresp⟩, _, _⟩ :=
      stepSign_ok_inv p W cr a b h
    exact ⟨⟨roots, hroots⟩, ⟨_, resp, hresp⟩⟩
  · unfold StepSign
    rw [h]
  · unfold StepSign
    rw [h1]
    dsimp only
    rw [encodeRoots_eq]
    dsimp only
    rw [h3]
    dsimp only
    rw [h4]
  · unfold StepSign
    rw [h1]
    dsimp only
    rw [encodeRoots_eq]
    dsimp only
    rw [h3]
    dsimp only
    rw [h4]
    dsimp only
    rw [h5]

-- Fixtures for the failing stages of the pipeline.
def tokenFailProvisioner : ProvisionerModel :=
  { roots := .ok { certificates := [rootCertFix] },
    token := fun _ _ => .error "token denied",
    sign := fun _ => .error "unused" }

def signFailProvisioner : ProvisionerModel :=
  { roots := .ok { certificates := [rootCertFix] },
    token := fun _ _ => .ok "one-time-token",
    sign := fun _ => .error "sign denied" }

/-- C5 witness. -/
theorem sign_error_forwarding_witness :
    StepSign badProvisioner strictX509 emptyRequest =
      (none, none, some "connection refused") ∧
    StepSign tokenFailProvisioner okX509 okRequest = (none, none, some "token denied") ∧
    StepSign signFailProvisioner okX509 okRequest = (none, none, some "sign denied") ∧
    ((∃ roots, okProvisioner.roots = .ok roots) ∧
      ∃ req resp, okProvisioner.sign req = .ok resp) :=
  ⟨(sign_error_forwarding badProvisioner strictX509 emptyRequest).2.1
      "connection refused" rfl,
   (sign_error_forwarding tokenFailProvisioner okX509 okRequest).2.2.1
      ⟨[rootCertFix]⟩ okCsrInfo "token denied" rfl (by rfl) rfl,
   (sign_error_forwarding signFailProvisioner okX509 okRequest).2.2.2
      ⟨[rootCertFix]⟩ okCsrInfo "one-time-token" "sign denied" rfl (by rfl) rfl rfl,
   (sign_error_forwarding okProvisioner okX509 okRequest).1
      (some (pemEncode certificateType leafCertFix.raw ++
        pemEncode certificateType intermediateCertFix.raw))
      (some (pemEncode certificateType rootCertFix.raw))
      (by rfl)⟩

/-- C6: the SAN sequence passed to token issuance is the request's DNS
names, then its email addresses, then its IP addresses rendered as text,
then its URIs rendered as text, each group in request order; StepSign
consults the token oracle only at that subject and SAN list. -/
theorem san_collection_order :
    (∀ csr : CertificateRequestInfo,
      collectSANs csr = csr.dnsNames ++ csr.emailAddresses ++
        csr.ipAddresses.map IPAddress.str ++ csr.uris.map URIValue.str) ∧
    (∀ (p₁ p₂ : ProvisionerModel) (W : X509World) (cr : CertManagerRequest)
      (csr : CertificateRequestInfo),
      decodeCSR W cr.request = .ok csr →
      p₁.roots = p₂.roots → p₁.sign = p₂.sign →
      p₁.token
          (resolveSubject csr.subject.commonName
            (csr.dnsNames ++ csr.emailAddresses ++
              csr.ipAddresses.map IPAddress.str ++ csr.uris.map URIValue.str))
          (csr.dnsNames ++ csr.emailAddresses ++
            csr.ipAddresses.map IPAddress.str ++ csr.uris.map URIValue.str) =
        p₂.token
          (resolveSubject csr.subject.commonName
            (csr.dnsNames ++ csr.emailAddresses ++
              csr.ipAddresses.map IPAddress.str ++ csr.uris.map URIValue.str))
          (csr.dnsNames ++ csr.emailAddresses ++
            csr.ipAddresses.map IPAddress.str ++ csr.uris.map URIValue.str) →
      StepSign p₁ W cr = StepSign p₂ W cr) := by
  have hc : ∀ csr : CertificateRequestInfo,
      collectSANs csr = csr.dnsNames ++ csr.emailAddresses ++
        csr.ipAddresses.map IPAddress.str ++ csr.uris.map URIValue.str := by
    intro csr
    simp [collectSANs]
  refine ⟨hc, fun p₁ p₂ W cr csr hdec hroots hsig htok => ?_⟩
  refine stepSign_congr p₁ p₂ W cr hroots (fun csr' hdec' => ?_) (fun r _ => by rw [hsig])
  rw [hdec] at hdec'
  injection hdec' with hcsr
  subst hcsr
  rw [hc csr]
  exact htok

/-- C6 witness. -/
theorem san_collection_order_witness :
    collectSANs okCsrInfo = okCsrInfo.dnsNames ++ okCsrInfo.emailAddresses ++
      okCsrInfo.ipAddresses.map IPAddress.str ++ okCsrInfo.uris.map URIValue.str ∧
    StepSign okProvisioner okX509 okRequest = StepSign okProvisioner okX509 okRequest :=
  ⟨san_collection_order.1 okCsrInfo,
   san_collection_order.2 okProvisioner okProvisioner okX509 okRequest okCsrInfo
     (by rfl) rfl rfl rfl⟩

/-- C7: the sign request carries an explicit not-after exactly when a
validity duration was supplied, carrying that duration; with no duration the
field keeps its zero value; and StepSign consults the sign oracle only at
requests whose not-after is the one computed from the supplied duration. -/
theorem notAfter_iff_duration (dur : Option Int) :
    ((notAfterFor dur).dur ≠ none ↔ dur ≠ none) ∧
    (∀ d, dur = some d → notAfterFor dur = TimeDuration.setDuration {} d) ∧
    (dur = none → notAfterFor dur = {}) ∧
    (∀ (p₁ p₂ : ProvisionerModel) (W : X509World) (cr : CertManagerRequest),
      cr.duration = dur →
      p₁.roots = p₂.roots → p₁.token = p₂.token →
      (∀ r : SignRequest, r.notAfter = notAfterFor dur → p₁.sign r = p₂.sign r) →
      StepSign p₁ W cr = StepSign p₂ W cr) := by
  refine ⟨?_, fun d hd => ?_, fun hd => ?_, fun p₁ p₂ W cr hdur hroots htok hsig => ?_⟩
  · cases dur with
    | none => simp [notAfterFor]
    | some d => simp [notAfterFor, TimeDuration.setDuration]
  · subst hd; rfl
  · subst hd; rfl
  · subst hdur
    exact stepSign_congr p₁ p₂ W cr hroots (fun csr _ => by rw [htok]) hsig

/-- C7 witness. -/
theorem notAfter_iff_duration_witness :
    ((notAfterFor (some 3600)).dur ≠ none ↔ (some (3600 : Int)) ≠ none) ∧
    notAfterFor (some 3600) = TimeDuration.setDuration {} 3600 ∧
    notAfterFor none = {} ∧
    StepSign okProvisioner okX509 okRequest = StepSign okProvisioner okX509 okRequest :=
  ⟨(notAfter_iff_duration (some 3600)).1,
   (notAfter_iff_duration (some 3600)).2.1 3600 rfl,
   (notAfter_iff_duration none).2.2.1 rfl,
   (notAfter_iff_duration none).2.2.2 okProvisioner okProvisioner okX509 okRequest
     rfl rfl rfl (fun _r _ => rfl)⟩

-- Fixtures for the construction-time claims.
def issFix : StepIssuer := { name := "issuer", namespaceStr := "ns" }

-- The CA client construction itself fails, while the version call would
-- succeed, declare client authentication mandatory, and the identity
-- exchange would succeed.
def badNewBootstrap : BootstrapWorld :=
  { newProvisioner := .error "bad provisioner configuration",
    version := .ok { requireClientAuthentication := true },
    createCertificateRequest := .ok (0, 0),
    identityToken := .ok "identity-token",
    identitySign := fun _ _ => .ok 0,
    transport := fun _ _ => .ok () }

-- Construction succeeds up to the bootstrap, whose token issuance fails.
def failingBootstrap : BootstrapWorld :=
  { newProvisioner := .ok (),
    version := .ok { requireClientAuthentication := true },
    createCertificateRequest := .ok (0, 0),
    identityToken := .error "token denied",
    identitySign := fun _ _ => .ok 0,
    transport := fun _ _ => .ok () }

-- The version call fails, so the bootstrap is skipped.
def skipBootstrap : BootstrapWorld :=
  { newProvisioner := .ok (),
    version := .error "version unavailable",
    createCertificateRequest := .ok (0, 0),
    identityToken := .ok "identity-token",
    identitySign := fun _ _ => .ok 0,
    transport := fun _ _ => .ok () }

/-- C4 counterexample: New also fails when the underlying CA client cannot
be constructed, a case in which the configuration fetch would succeed and
declare client authentication mandatory while the identity exchange would
succeed, so New's failures are not exactly the bootstrap failures. -/
theorem new_fails_without_bootstrap_failure :
    (∃ e, New issFix badNewBootstrap = .error e) ∧
    badNewBootstrap.version = .ok { requireClientAuthentication := true } ∧
    createIdentityCertificate badNewBootstrap = none :=
  ⟨⟨"bad provisioner configuration", rfl⟩, rfl, rfl⟩

/-- C4 amended: when the underlying CA provisioner client is constructed
successfully, New fails exactly when the version call succeeds, declares
client authentication mandatory, and the identity-certificate exchange
fails; the bootstrap failure is forwarded, and a version failure skips the
bootstrap with no error. -/
theorem new_bootstrap_outcome (iss : StepIssuer) (w : BootstrapWorld) (u : Unit)
    (hnp : w.newProvisioner = .ok u) :
    ((∃ e, New iss w = .error e) ↔
      (∃ v, w.version = .ok v ∧ v.requireClientAuthentication = true ∧
        ∃ e, createIdentityCertificate w = some e)) ∧
    (∀ v e, w.version = .ok v → v.requireClientAuthentication = true →
      createIdentityCertificate w = some e → New iss w = .error e) ∧
    (∀ e₀, w.version = .error e₀ →
      New iss w = .ok { name := iss.name ++ "." ++ iss.namespaceStr }) := by
  have hNew : New iss w =
      match w.version with
      | .ok version =>
        if version.requireClientAuthentication then
          match createIdentityCertificate w with
          | some e => .error e
          | none => .ok { name := iss.name ++ "." ++ iss.namespaceStr }
        else .ok { name := iss.name ++ "." ++ iss.namespaceStr }
      | .error _ => .ok { name := iss.name ++ "." ++ iss.namespaceStr } := by
    unfold New
    rw [hnp]
  refine ⟨⟨fun ⟨e, hN⟩ => ?_, fun ⟨v, hv, hreq, e, hci⟩ => ?_⟩,
    fun v e hv hreq hci => ?_, fun e₀ hv => ?_⟩
  · rw [hNew] at hN
    cases hv : w.version with
    | error e₀ => rw [hv] at hN; exact Except.noConfusion hN
    | ok v =>
      rw [hv] at hN
      dsimp only at hN
      by_cases hreq : v.requireClientAuthentication
      · rw [if_pos hreq] at hN
        cases hci : createIdentityCertificate w with
        | none => rw [hci] at hN; exact Except.noConfusion hN
        | some e' =>
          rw [hci] at hN
          exact ⟨v, rfl, hreq, e', rfl⟩
      · rw [if_neg hreq] at hN
        exact Except.noConfusion hN
  · refine ⟨e, ?_⟩
    rw [hNew, hv]
    dsimp only
    rw [if_pos hreq, hci]
  · rw [hNew, hv]
    dsimp only
    rw [if_pos hreq, hci]
  · rw [hNew, hv]

/-- C4 witness. -/
theorem new_bootstrap_outcome_witness :
    (∃ e, New issFix failingBootstrap = .error e) ∧
    New issFix skipBootstrap =
      .ok { name := issFix.name ++ "." ++ issFix.namespaceStr } :=
  ⟨(new_bootstrap_outcome issFix failingBootstrap () rfl).1.mpr
      ⟨{ requireClientAuthentication := true }, rfl, rfl, "token denied", rfl⟩,
   (new_bootstrap_outcome issFix skipBootstrap () rfl).2.2 "version unavailable" rfl⟩

end StepProvisioners
